import Mathlib

/-!
Verification of the retail data-warehouse ETL pipeline.

This file is a shallow embedding, in Lean 4, of the transform and load logic
of `src/etl/etl_pipeline.py` (functions `build_date_dim`, `transform`, `load`)
together with theorems settling the testable properties stated in the
specification.

Modelling conventions:
* CSV records are structures of raw `String` fields, exactly the columns the
  pipeline reads (the generator `src/data/generate_data.py` fixes the column
  sets).
* The Python `int(...)` and `float(...)` conversions are modelled as fallible
  parsers `pyInt` / `pyFloat` returning `Option`; a parse failure aborts the
  transform, as an uncaught `ValueError` does in the source.
* Python floats are idealised as exact rationals `ℚ`; `round(x, 4)` is
  modelled as exact decimal rounding to four places with ties to even
  (`round4`), matching the Python builtin on exact decimal values.
* Rational arithmetic inside the pipeline is expressed through `qmul`, `qsub`
  and `mkRat` so that every pipeline value is kernel-computable; the bridge
  lemmas `qmul_eq` and `qsub_eq` identify these with the ordinary `ℚ`
  operations.
* `datetime.date.fromisoformat` is modelled for the two ISO 8601 date shapes
  current CPython (3.11+) accepts that matter here: the extended form
  `YYYY-MM-DD` and the basic form `YYYYMMDD`.  Further accepted shapes (week
  and ordinal dates) are omitted; the model only accepts fewer strings.
* Python `dict` built by comprehension is modelled as an association list
  where the binding appearing later in iteration order wins (`dget`).
* The target SQLite store is modelled as `Option DBFile` (`none` = no database
  file); `load` is modelled as the sequence of store effects it performs, in
  program order, so that the state after a failure at any point is expressible.
-/

namespace RetailDW

/-- Numeric value of a decimal digit character, `none` on a non-digit. -/
def digitVal (c : Char) : Option Nat :=
  if c.isDigit then some (c.toNat - 48) else none

/-- Accumulating decimal read of a digit list; fails on any non-digit. -/
def digitsToNat (acc : Nat) : List Char → Option Nat
  | [] => some acc
  | c :: cs =>
    match digitVal c with
    | some v => digitsToNat (10 * acc + v) cs
    | none => none

/-- Decimal read of a non-empty digit list. -/
def natOfDigits (cs : List Char) : Option Nat :=
  if cs.isEmpty then none else digitsToNat 0 cs

/-- Model of the Python `int(...)` conversion applied to a CSV field: an
optional sign followed by decimal digits. -/
def pyInt (s : String) : Option Int :=
  match s.toList with
  | '-' :: cs => (natOfDigits cs).map (fun n => -(n : Int))
  | '+' :: cs => (natOfDigits cs).map (fun n => (n : Int))
  | cs => (natOfDigits cs).map (fun n => (n : Int))

/-- Unsigned decimal literal with an optional decimal point, read as an exact
rational. -/
def decimalCore (cs : List Char) : Option ℚ :=
  let intPart := cs.takeWhile (fun c => c ≠ '.')
  match cs.dropWhile (fun c => c ≠ '.') with
  | [] => (natOfDigits intPart).map (fun n => (n : ℚ))
  | _ :: fracPart =>
    if intPart.isEmpty && fracPart.isEmpty then none
    else
      match digitsToNat 0 intPart, digitsToNat 0 fracPart with
      | some ip, some fp => some (mkRat (ip * 10 ^ fracPart.length + fp) (10 ^ fracPart.length))
      | _, _ => none

/-- Model of the Python `float(...)` conversion applied to a CSV field,
idealised to exact rationals: an optional sign followed by a decimal literal.
The pipeline inputs carry only plain decimal literals. -/
def pyFloat (s : String) : Option ℚ :=
  match s.toList with
  | '-' :: cs => (decimalCore cs).map (fun q => -q)
  | '+' :: cs => decimalCore cs
  | cs => decimalCore cs

/-- Product of two rationals computed through `mkRat`, so that it reduces in
the kernel. Provably equal to `a * b` (`qmul_eq`). -/
def qmul (a b : ℚ) : ℚ := mkRat (a.num * b.num) (a.den * b.den)

/-- Difference of two rationals computed through `mkRat`, so that it reduces
in the kernel. Provably equal to `a - b` (`qsub_eq`). -/
def qsub (a b : ℚ) : ℚ := mkRat (a.num * b.den - b.num * a.den) (a.den * b.den)

/-- Nearest integer to a rational, ties to the even integer: the rounding rule
of the Python `round` builtin, on exact values. -/
def roundHalfEven (q : ℚ) : Int :=
  let f := q.num.fdiv (q.den : Int)
  let r2 := 2 * (q.num - f * (q.den : Int))
  if r2 < (q.den : Int) then f
  else if (q.den : Int) < r2 then f + 1
  else if f % 2 = 0 then f else f + 1

/-- Model of Python `round(x, 4)` on exact decimal values: round to four
decimal places, ties to even. -/
def round4 (q : ℚ) : ℚ := mkRat (roundHalfEven (qmul q 10000)) 10000

/-- Calendar date, proleptic Gregorian, as Python `datetime.date`. -/
structure Date where
  year : Nat
  month : Nat
  day : Nat
deriving DecidableEq

/-- Gregorian leap-year rule. -/
def isLeapYear (y : Nat) : Bool :=
  y % 4 = 0 && (y % 100 ≠ 0 || y % 400 = 0)

/-- Number of days in a month of a given year. -/
def daysInMonth (y m : Nat) : Nat :=
  if m = 2 then (if isLeapYear y then 29 else 28)
  else if m = 4 || m = 6 || m = 9 || m = 11 then 30
  else 31

/-- Construct a date after the range checks `datetime.date` performs. -/
def mkValidDate (y m d : Nat) : Option Date :=
  if 1 ≤ y ∧ y ≤ 9999 ∧ 1 ≤ m ∧ m ≤ 12 ∧ 1 ≤ d ∧ d ≤ daysInMonth y m
  then some ⟨y, m, d⟩ else none

/-- Model of `datetime.date.fromisoformat`: accepts the extended `YYYY-MM-DD`
and the basic `YYYYMMDD` ISO 8601 date forms (CPython 3.11+); rejects
everything else. -/
def fromisoformat (s : String) : Option Date :=
  match s.toList with
  | [a, b, c, d, '-', e, f, '-', g, h] =>
    match natOfDigits [a, b, c, d], natOfDigits [e, f], natOfDigits [g, h] with
    | some y, some m, some dd => mkValidDate y m dd
    | _, _, _ => none
  | [a, b, c, d, e, f, g, h] =>
    match natOfDigits [a, b, c, d], natOfDigits [e, f], natOfDigits [g, h] with
    | some y, some m, some dd => mkValidDate y m dd
    | _, _, _ => none
  | _ => none

/-- Decimal rendering of a natural number, left-padded with zeros. -/
def padNat (w n : Nat) : String :=
  String.mk (List.replicate (w - (toString n).length) '0') ++ toString n

/-- Model of Python `str(d)` on a date: the canonical `YYYY-MM-DD` form. -/
def isoStr (d : Date) : String :=
  padNat 4 d.year ++ "-" ++ padNat 2 d.month ++ "-" ++ padNat 2 d.day

/-- Model of `int(d.strftime("%Y%m%d"))`: the date as the integer YYYYMMDD. -/
def dateId (d : Date) : Nat := 10000 * d.year + 100 * d.month + d.day

/-- Days in all years strictly before year `y` (CPython `_days_before_year`). -/
def daysBeforeYear (y : Nat) : Nat :=
  365 * (y - 1) + (y - 1) / 4 - (y - 1) / 100 + (y - 1) / 400

/-- Days in the months of year `y` strictly before month `m`. -/
def daysBeforeMonth (y m : Nat) : Nat :=
  (List.range (m - 1)).foldl (fun acc i => acc + daysInMonth y (i + 1)) 0

/-- Proleptic Gregorian ordinal of a date, with 0001-01-01 as day 1
(CPython `_ymd2ord`). -/
def toOrdinal (d : Date) : Nat :=
  daysBeforeYear d.year + daysBeforeMonth d.year d.month + d.day

/-- Model of `date.weekday()`: 0 = Monday, ..., 6 = Sunday. -/
def weekday (d : Date) : Nat := (toOrdinal d + 6) % 7

/-- Ordinal of the Monday starting ISO week 1 of year `y`
(CPython `_isoweek1monday`). -/
def isoWeek1Monday (y : Nat) : Int :=
  let firstday : Int := (daysBeforeYear y : Int) + 1
  let firstweekday := (firstday + 6) % 7
  let week1monday := firstday - firstweekday
  if 3 < firstweekday then week1monday + 7 else week1monday

/-- Model of `date.isocalendar()[1]`: the ISO 8601 week number. -/
def isoWeek (d : Date) : Nat :=
  let today : Int := (toOrdinal d : Int)
  let wk := Int.fdiv (today - isoWeek1Monday d.year) 7
  if wk < 0 then (Int.fdiv (today - isoWeek1Monday (d.year - 1)) 7 + 1).toNat
  else if 52 ≤ wk then
    if isoWeek1Monday (d.year + 1) ≤ today then 1 else (wk + 1).toNat
  else (wk + 1).toNat

/-- The English month names used by `build_date_dim`. -/
def MONTHS : List String :=
  ["January", "February", "March", "April", "May", "June",
   "July", "August", "September", "October", "November", "December"]

/-- The English day names used by `build_date_dim`, Monday first. -/
def DAYS : List String :=
  ["Monday", "Tuesday", "Wednesday", "Thursday", "Friday", "Saturday", "Sunday"]

/-- Month name lookup, `MONTHS[m - 1]`. -/
def monthName (m : Nat) : String := MONTHS.getD (m - 1) ""

/-- Day name lookup, `DAYS[w]`. -/
def dayName (w : Nat) : String := DAYS.getD w ""

/-- The range invariants `datetime.date` guarantees for its fields. -/
def validDate (d : Date) : Prop :=
  1 ≤ d.year ∧ d.year ≤ 9999 ∧ 1 ≤ d.month ∧ d.month ≤ 12 ∧
    1 ≤ d.day ∧ d.day ≤ daysInMonth d.year d.month

instance (d : Date) : Decidable (validDate d) := by
  unfold validDate; infer_instance

/-- Calendar order on dates: `a` is strictly earlier than `b`. -/
def calBefore (a b : Date) : Prop :=
  a.year < b.year ∨
    (a.year = b.year ∧
      (a.month < b.month ∨ (a.month = b.month ∧ a.day < b.day)))

/-- A row of `customers.csv` as read by `csv.DictReader` (columns fixed by
`src/data/generate_data.py`). -/
structure CustomerRec where
  customer_id : String
  first_name : String
  last_name : String
  email : String
  city : String
  segment : String
  registered_at : String
deriving DecidableEq, Inhabited

/-- A row of `products.csv`. -/
structure ProductRec where
  product_id : String
  product_name : String
  category : String
  unit_price : String
  unit_cost : String
  supplier : String
deriving DecidableEq, Inhabited

/-- A row of `orders.csv`. -/
structure OrderRec where
  order_id : String
  customer_id : String
  order_date : String
  status : String
  channel : String
  payment_method : String
  order_total : String
deriving DecidableEq, Inhabited

/-- A row of `order_items.csv`. -/
structure ItemRec where
  order_item_id : String
  order_id : String
  product_id : String
  quantity : String
  unit_price : String
  discount : String
  subtotal : String
deriving DecidableEq, Inhabited

/-- The four extracted record sets handed to `transform`. -/
structure SourceData where
  customers : List CustomerRec
  products : List ProductRec
  orders : List OrderRec
  order_items : List ItemRec
deriving DecidableEq, Inhabited

/-- Failure of a source field to convert to its numeric or date type: the
uncaught `ValueError` that aborts the Python transform. -/
inductive Err where
  | dateParse (s : String)
  | intParse (s : String)
  | floatParse (s : String)
deriving DecidableEq

/-- Decidable equality for `Except`, component-wise. -/
def exceptDecEq [DecidableEq ε] [DecidableEq α] : DecidableEq (Except ε α) :=
  fun x y =>
    match x, y with
    | .ok a, .ok b =>
      if h : a = b then isTrue (by rw [h]) else isFalse (by intro hc; cases hc; exact h rfl)
    | .ok _, .error _ => isFalse (by intro hc; cases hc)
    | .error _, .ok _ => isFalse (by intro hc; cases hc)
    | .error e, .error f =>
      if h : e = f then isTrue (by rw [h]) else isFalse (by intro hc; cases hc; exact h rfl)

instance [DecidableEq ε] [DecidableEq α] : DecidableEq (Except ε α) := exceptDecEq

/-- A `dim_date` row exactly as built by `build_date_dim`. -/
structure DateRow where
  date_id : Nat
  full_date : String
  day : Nat
  month : Nat
  month_name : String
  quarter : Nat
  year : Nat
  week_of_year : Nat
  day_of_week : String
  is_weekend : Bool
deriving DecidableEq, Inhabited

/-- The `dim_date` row `build_date_dim` constructs for a date. -/
def mkDateRow (d : Date) : DateRow :=
  { date_id := dateId d
    full_date := isoStr d
    day := d.day
    month := d.month
    month_name := monthName d.month
    quarter := (d.month - 1) / 3 + 1
    year := d.year
    week_of_year := isoWeek d
    day_of_week := dayName (weekday d)
    is_weekend := decide (5 ≤ weekday d) }

/-- Loop of `build_date_dim`: scan the orders, adding a row for each date id
not already present; `acc` is the insertion-ordered content of `seen`. -/
def buildDateDimAux (acc : List DateRow) : List OrderRec → Except Err (List DateRow)
  | [] => .ok acc
  | o :: rest =>
    match fromisoformat o.order_date with
    | none => .error (.dateParse o.order_date)
    | some d =>
      if (acc.map DateRow.date_id).contains (dateId d)
      then buildDateDimAux acc rest
      else buildDateDimAux (acc ++ [mkDateRow d]) rest

/-- Model of `build_date_dim`: one row per unique order date. -/
def buildDateDim (orders : List OrderRec) : Except Err (List DateRow) :=
  buildDateDimAux [] orders

/-- A `dim_customer` row exactly as built by `transform` (note: no
`registered_at` column). -/
structure DimCustomer where
  customer_id : Int
  first_name : String
  last_name : String
  full_name : String
  email : String
  city : String
  segment : String
deriving DecidableEq, Inhabited

/-- The `dim_customer` row `transform` builds from one source customer. -/
def dimCustomerRow (c : CustomerRec) : Except Err DimCustomer :=
  match pyInt c.customer_id with
  | none => .error (.intParse c.customer_id)
  | some cid =>
    .ok { customer_id := cid
          first_name := c.first_name
          last_name := c.last_name
          full_name := c.first_name ++ " " ++ c.last_name
          email := c.email
          city := c.city
          segment := c.segment }

/-- The `dim_customer` list comprehension of `transform`. -/
def buildDimCustomer : List CustomerRec → Except Err (List DimCustomer)
  | [] => .ok []
  | c :: rest =>
    match dimCustomerRow c with
    | .error e => .error e
    | .ok row =>
      match buildDimCustomer rest with
      | .error e => .error e
      | .ok rows => .ok (row :: rows)

/-- A `dim_product` row exactly as built by `transform` (note: no
`unit_price` column). -/
structure DimProduct where
  product_id : Int
  product_name : String
  category : String
  unit_cost : ℚ
  supplier : String
deriving DecidableEq, Inhabited

/-- The `dim_product` row `transform` builds from one source product. -/
def dimProductRow (p : ProductRec) : Except Err DimProduct :=
  match pyInt p.product_id with
  | none => .error (.intParse p.product_id)
  | some pid =>
    match pyFloat p.unit_cost with
    | none => .error (.floatParse p.unit_cost)
    | some c =>
      .ok { product_id := pid
            product_name := p.product_name
            category := p.category
            unit_cost := c
            supplier := p.supplier }

/-- The `dim_product` list comprehension of `transform`. -/
def buildDimProduct : List ProductRec → Except Err (List DimProduct)
  | [] => .ok []
  | p :: rest =>
    match dimProductRow p with
    | .error e => .error e
    | .ok row =>
      match buildDimProduct rest with
      | .error e => .error e
      | .ok rows => .ok (row :: rows)

/-- Lookup in a Python dict built by comprehension over an association list:
the binding appearing later in iteration order wins. -/
def dget [DecidableEq α] : List (α × β) → α → Option β
  | [], _ => none
  | p :: rest, k =>
    match dget rest k with
    | some v => some v
    | none => if p.1 = k then some p.2 else none

/-- The fixed channel dict of `transform`. -/
def channelMap : List (String × Nat) := [("online", 1), ("mobile_app", 2), ("store", 3)]

/-- The `cost_lookup` dict comprehension: parsed product id to parsed cost. -/
def buildCostLookup : List ProductRec → Except Err (List (Int × ℚ))
  | [] => .ok []
  | p :: rest =>
    match pyInt p.product_id with
    | none => .error (.intParse p.product_id)
    | some pid =>
      match pyFloat p.unit_cost with
      | none => .error (.floatParse p.unit_cost)
      | some c =>
        match buildCostLookup rest with
        | .error e => .error e
        | .ok m => .ok ((pid, c) :: m)

/-- The `order_lookup` dict comprehension: parsed order id to its record. -/
def buildOrderLookup : List OrderRec → Except Err (List (Int × OrderRec))
  | [] => .ok []
  | o :: rest =>
    match pyInt o.order_id with
    | none => .error (.intParse o.order_id)
    | some oid =>
      match buildOrderLookup rest with
      | .error e => .error e
      | .ok m => .ok ((oid, o) :: m)

/-- A `fact_sales` row exactly as built by `transform`. The `date_id` is an
`Option` because the code fills it with `date_lookup.get(...)`, which yields
`None` on a lookup miss. -/
structure FactRow where
  order_id : Int
  order_item_id : Int
  date_id : Option Nat
  customer_id : Int
  product_id : Int
  channel_id : Nat
  quantity : Int
  unit_price : ℚ
  unit_cost : ℚ
  discount : ℚ
  gross_revenue : ℚ
  net_revenue : ℚ
  cogs : ℚ
  gross_margin : ℚ
  status : String
deriving DecidableEq, Inhabited

/-- Mutable state of the fact loop: accumulated rows and the skip counter. -/
structure FactState where
  facts : List FactRow
  skipped : Nat
deriving DecidableEq, Inhabited

/-- One iteration of the fact loop of `transform`, for a single order item.
An order-lookup miss increments the skip counter and touches nothing else;
every other path parses the remaining fields and appends one fact row. -/
def factStep (olk : List (Int × OrderRec)) (clk : List (Int × ℚ))
    (dlk : List (String × Nat)) (st : FactState) (item : ItemRec) :
    Except Err FactState :=
  match pyInt item.order_id with
  | none => .error (.intParse item.order_id)
  | some oid =>
    match dget olk oid with
    | none => .ok { st with skipped := st.skipped + 1 }
    | some order =>
      match pyInt item.product_id with
      | none => .error (.intParse item.product_id)
      | some pid =>
        match pyInt item.quantity with
        | none => .error (.intParse item.quantity)
        | some qty =>
          match pyFloat item.unit_price with
          | none => .error (.floatParse item.unit_price)
          | some price =>
            match pyFloat item.discount with
            | none => .error (.floatParse item.discount)
            | some disc =>
              match pyInt item.order_item_id with
              | none => .error (.intParse item.order_item_id)
              | some oiid =>
                match pyInt order.customer_id with
                | none => .error (.intParse order.customer_id)
                | some cust =>
                  let ucost := (dget clk pid).getD 0
                  let gross := round4 (qmul (qty : ℚ) price)
                  let net := round4 (qmul gross (qsub 1 disc))
                  let cg := round4 (qmul (qty : ℚ) ucost)
                  let margin := round4 (qsub net cg)
                  let chan := (dget channelMap order.channel).getD 1
                  let did := dget dlk order.order_date
                  .ok { st with
                        facts := st.facts ++
                          [{ order_id := oid
                             order_item_id := oiid
                             date_id := did
                             customer_id := cust
                             product_id := pid
                             channel_id := chan
                             quantity := qty
                             unit_price := price
                             unit_cost := ucost
                             discount := disc
                             gross_revenue := gross
                             net_revenue := net
                             cogs := cg
                             gross_margin := margin
                             status := order.status }] }

/-- The fact loop of `transform` over all order items. -/
def factLoop (olk : List (Int × OrderRec)) (clk : List (Int × ℚ))
    (dlk : List (String × Nat)) : FactState → List ItemRec → Except Err FactState
  | st, [] => .ok st
  | st, i :: rest =>
    match factStep olk clk dlk st i with
    | .error e => .error e
    | .ok st2 => factLoop olk clk dlk st2 rest

/-- The four output record sets of `transform` plus the skip counter it
reports. -/
structure TransformOut where
  dim_date : List DateRow
  dim_customer : List DimCustomer
  dim_product : List DimProduct
  fact_sales : List FactRow
  skipped : Nat
deriving DecidableEq, Inhabited

/-- Model of `transform`: build `dim_date`, the dimension tables and the
lookups, then derive `fact_sales`, in program order. -/
def transform (data : SourceData) : Except Err TransformOut :=
  match buildDateDim data.orders with
  | .error e => .error e
  | .ok dimDate =>
    match buildDimCustomer data.customers with
    | .error e => .error e
    | .ok dimCustomer =>
      match buildDimProduct data.products with
      | .error e => .error e
      | .ok dimProduct =>
        match buildCostLookup data.products with
        | .error e => .error e
        | .ok clk =>
          match buildOrderLookup data.orders with
          | .error e => .error e
          | .ok olk =>
            let dlk := dimDate.map (fun r => (r.full_date, r.date_id))
            match factLoop olk clk dlk ⟨[], 0⟩ data.order_items with
            | .error e => .error e
            | .ok st => .ok ⟨dimDate, dimCustomer, dimProduct, st.facts, st.skipped⟩

/-- Content of the target SQLite database file: each table is `none` until
its `CREATE TABLE` runs, then `some` its rows. -/
structure DBFile where
  dim_date : Option (List DateRow)
  dim_customer : Option (List DimCustomer)
  dim_product : Option (List DimProduct)
  fact_sales : Option (List FactRow)
deriving DecidableEq, Inhabited

/-- State of the target store: `none` means the database file is absent. -/
abbrev Store := Option DBFile

/-- Modelled from the spec: schema provisioning (the DDL in
`warehouse/schema.sql`, which is not part of the repository source) creates
the four empty target tables. -/
def applySchema (_db : DBFile) : DBFile :=
  ⟨some [], some [], some [], some []⟩

/-- The sequence of store effects `load` performs, in program order:
`os.remove` of the database file, `sqlite3.connect` creating a fresh empty
file, applying the schema, then the four bulk inserts. -/
def loadOps (dd : List DateRow) (dc : List DimCustomer) (dp : List DimProduct)
    (fs : List FactRow) : List (Store → Store) :=
  [ fun _ => none,
    fun _ => some ⟨none, none, none, none⟩,
    fun s => s.map applySchema,
    fun s => s.map (fun db => { db with dim_date := some dd }),
    fun s => s.map (fun db => { db with dim_customer := some dc }),
    fun s => s.map (fun db => { db with dim_product := some dp }),
    fun s => s.map (fun db => { db with fact_sales := some fs }) ]

/-- Store state after the first `k` effects of `load`, starting from the
prior store generation; a failure after step `k` leaves exactly this state. -/
def loadRun (dd : List DateRow) (dc : List DimCustomer) (dp : List DimProduct)
    (fs : List FactRow) (k : Nat) (prior : Store) : Store :=
  ((loadOps dd dc dp fs).take k).foldl (fun s f => f s) prior

/-- The branch the fact loop takes for an item, as a predicate: the item is
dropped as an orphan exactly when its parsed order id misses the order
lookup. -/
def stepOrphan (olk : List (Int × OrderRec)) (i : ItemRec) : Bool :=
  (pyInt i.order_id).elim false (fun oid => (dget olk oid).isNone)

/-- An order item is orphaned when its order id parses but matches no order
in the order set. -/
def orphaned (orders : List OrderRec) (i : ItemRec) : Bool :=
  (pyInt i.order_id).elim false
    (fun oid => !(orders.any (fun o => decide (pyInt o.order_id = some oid))))

/-- The metric identities of the specification, for one fact row. -/
def measuresOk (r : FactRow) : Prop :=
  r.gross_revenue = round4 ((r.quantity : ℚ) * r.unit_price) ∧
  r.net_revenue = round4 (r.gross_revenue * (1 - r.discount)) ∧
  r.cogs = round4 ((r.quantity : ℚ) * r.unit_cost) ∧
  r.gross_margin = round4 (r.net_revenue - r.cogs)

/-- Provenance of a fact row: which parsed item fields and which resolved
order produced its foreign keys. -/
def rowFrom (olk : List (Int × OrderRec)) (dlk : List (String × Nat))
    (i : ItemRec) (r : FactRow) : Prop :=
  pyInt i.product_id = some r.product_id ∧
  ∃ order oid, pyInt i.order_id = some oid ∧ dget olk oid = some order ∧
    pyInt order.customer_id = some r.customer_id ∧ r.date_id = dget dlk order.order_date

/-- Referential closure of a transform output: every foreign key of every
fact row resolves to a dimension row. -/
def refClosed (out : TransformOut) : Prop :=
  ∀ r ∈ out.fact_sales,
    (∃ dr ∈ out.dim_date, r.date_id = some dr.date_id) ∧
    (∃ c ∈ out.dim_customer, r.customer_id = c.customer_id) ∧
    (∃ p ∈ out.dim_product, r.product_id = p.product_id)

instance (out : TransformOut) : Decidable (refClosed out) := by
  unfold refClosed
  infer_instance

/-- A date string is canonical when it parses and re-rendering the parsed
date gives back the same string (the extended zero-padded `YYYY-MM-DD`
form). -/
def canonicalDate (s : String) : Prop := (fromisoformat s).map isoStr = some s

instance (s : String) : Decidable (canonicalDate s) := by
  unfold canonicalDate
  infer_instance

/-- Margin scenario input: unit_cost 6.00, qty 3, unit_price 10.00,
discount 0.10. -/
def c1Data : SourceData :=
  ⟨[⟨"1", "Ann", "Lee", "ann@example.com", "NYC", "Retail", "2020-01-01"⟩],
   [⟨"5", "Lamp", "Home & Garden", "10.00", "6.00", "Supplier_1"⟩],
   [⟨"1", "1", "2024-03-15", "completed", "online", "credit_card", "27.00"⟩],
   [⟨"1", "1", "5", "3", "10.00", "0.10", "27.00"⟩]⟩

/-- Transform output of the margin scenario. -/
def c1Out : TransformOut := (transform c1Data).toOption.getD default

/-- The single fact row of the margin scenario. -/
def c1Row : FactRow := c1Out.fact_sales.getD 0 default

/-- Orphan-tolerance scenario input: orders 1 and 2, one item on order 1 and
one item on the absent order 99. -/
def c2Data : SourceData :=
  ⟨[⟨"1", "Ann", "Lee", "ann@example.com", "NYC", "Retail", "2020-01-01"⟩],
   [⟨"5", "Lamp", "Home & Garden", "10.00", "6.00", "Supplier_1"⟩],
   [⟨"1", "1", "2024-03-15", "completed", "online", "credit_card", "20.00"⟩,
    ⟨"2", "1", "2024-03-16", "completed", "store", "cash", "5.00"⟩],
   [⟨"10", "1", "5", "2", "10.00", "0.0", "20.00"⟩,
    ⟨"11", "99", "5", "1", "10.00", "0.0", "10.00"⟩]⟩

/-- Transform output of the orphan-tolerance scenario. -/
def c2Out : TransformOut := (transform c2Data).toOption.getD default

/-- Input breaking referential closure: no customers, no products, and an
order date in the basic ISO form, so that the fact row resolves none of its
three dimension keys. -/
def c3Data : SourceData :=
  ⟨[], [],
   [⟨"1", "7", "20240105", "completed", "online", "cash", "20.00"⟩],
   [⟨"10", "1", "5", "2", "10.00", "0.0", "20.00"⟩]⟩

/-- Transform output of the closure-breaking input. -/
def c3Out : TransformOut := (transform c3Data).toOption.getD default

/-- A well-referenced input with a canonical order date. -/
def c3GoodData : SourceData :=
  ⟨[⟨"1", "Ann", "Lee", "ann@example.com", "NYC", "Retail", "2020-01-01"⟩],
   [⟨"5", "Lamp", "Home & Garden", "10.00", "6.00", "Supplier_1"⟩],
   [⟨"1", "1", "2024-03-15", "completed", "online", "cash", "20.00"⟩],
   [⟨"10", "1", "5", "2", "10.00", "0.0", "20.00"⟩]⟩

/-- Transform output of the well-referenced input. -/
def c3GoodOut : TransformOut := (transform c3GoodData).toOption.getD default

/-- Input whose order date is in the basic ISO form `YYYYMMDD`: it parses,
so `build_date_dim` accepts it, but the date lookup is keyed by the canonical
form, so the fact deriver's lookup misses. -/
def c4Data : SourceData :=
  ⟨[⟨"1", "Ann", "Lee", "ann@example.com", "NYC", "Retail", "2020-01-01"⟩],
   [⟨"5", "Lamp", "Home & Garden", "10.00", "6.00", "Supplier_1"⟩],
   [⟨"1", "1", "20240105", "completed", "online", "cash", "30.00"⟩],
   [⟨"10", "1", "5", "3", "10.00", "0.10", "27.00"⟩]⟩

/-- Transform output of the date-lookup-miss input. -/
def c4Out : TransformOut := (transform c4Data).toOption.getD default

/-- A source customer registered on 2020-01-01. -/
def c5CustA : CustomerRec :=
  ⟨"1", "Ann", "Lee", "ann@example.com", "NYC", "Retail", "2020-01-01"⟩

/-- The same customer except registered on 2021-05-05. -/
def c5CustB : CustomerRec :=
  ⟨"1", "Ann", "Lee", "ann@example.com", "NYC", "Retail", "2021-05-05"⟩

/-- Customer dimension built from the single customer `c5CustA`. -/
def c5DimOut : List DimCustomer := (buildDimCustomer [c5CustA]).toOption.getD default

/-- A source product priced at 10.00. -/
def c6ProdA : ProductRec :=
  ⟨"5", "Lamp", "Home & Garden", "10.00", "6.00", "Supplier_1"⟩

/-- The same product except priced at 999.99. -/
def c6ProdB : ProductRec :=
  ⟨"5", "Lamp", "Home & Garden", "999.99", "6.00", "Supplier_1"⟩

/-- Product dimension built from the single product `c6ProdA`. -/
def c6DimOut : List DimProduct := (buildDimProduct [c6ProdA]).toOption.getD default

/-- Three orders over two distinct dates (2024-03-15 twice, 2024-03-16 once;
the 16th is a Saturday). -/
def c7Orders : List OrderRec :=
  [⟨"1", "1", "2024-03-15", "completed", "online", "cash", "1.00"⟩,
   ⟨"2", "1", "2024-03-16", "completed", "online", "cash", "1.00"⟩,
   ⟨"3", "1", "2024-03-15", "returned", "store", "cash", "1.00"⟩]

/-- Date dimension of `c7Orders`. -/
def c7Out : List DateRow := (buildDateDim c7Orders).toOption.getD default

/-- Two orders on calendar-decreasing dates across a year boundary. -/
def c8Orders : List OrderRec :=
  [⟨"1", "1", "2024-03-15", "completed", "online", "cash", "1.00"⟩,
   ⟨"2", "1", "2023-12-31", "completed", "online", "cash", "1.00"⟩]

/-- Date dimension of `c8Orders`. -/
def c8Out : List DateRow := (buildDateDim c8Orders).toOption.getD default

/-- The 2024-03-15 row of `c8Out`. -/
def c8Row1 : DateRow := c8Out.getD 0 default

/-- The 2023-12-31 row of `c8Out`. -/
def c8Row2 : DateRow := c8Out.getD 1 default

/-- A prior store generation holding a non-empty `fact_sales` table. -/
def c9Prior : DBFile := ⟨some [], some [], some [], some [default]⟩

/-- An order lookup holding only order 1. -/
def c10Olk : List (Int × OrderRec) :=
  [(1, ⟨"1", "1", "2024-03-15", "completed", "online", "cash", "1.00"⟩)]

/-- An order item referencing absent order 99 whose remaining fields are all
malformed for their declared types. -/
def c10Item : ItemRec := ⟨"garbage", "99", "junk", "NaN", "??", "--", "x"⟩

/-- The kernel-computable product agrees with the field product on `ℚ`. -/
theorem qmul_eq (a b : ℚ) : qmul a b = a * b := by
  rw [qmul, Rat.mkRat_eq_div]
  push_cast
  conv_rhs => rw [← Rat.num_div_den a, ← Rat.num_div_den b, div_mul_div_comm]

/-- The kernel-computable difference agrees with subtraction on `ℚ`. -/
theorem qsub_eq (a b : ℚ) : qsub a b = a - b := by
  have ha : ((a.den : ℚ)) ≠ 0 := Nat.cast_ne_zero.mpr a.den_nz
  have hb : ((b.den : ℚ)) ≠ 0 := Nat.cast_ne_zero.mpr b.den_nz
  rw [qsub, Rat.mkRat_eq_div]
  push_cast
  conv_rhs => rw [← Rat.num_div_den a, ← Rat.num_div_den b, div_sub_div _ _ ha hb]
  ring_nf

/-- A successful dict lookup returns a binding of the association list. -/
theorem dget_mem [DecidableEq α] (m : List (α × β)) (k : α) (v : β)
    (h : dget m k = some v) : (k, v) ∈ m := by
  induction m with
  | nil => simp [dget] at h
  | cons p rest ih =>
    rw [dget] at h
    cases hr : dget rest k with
    | some w =>
      rw [hr] at h
      cases h
      exact List.mem_cons_of_mem _ (ih hr)
    | none =>
      rw [hr] at h
      by_cases hk : p.1 = k
      · rw [if_pos hk] at h
        cases h
        cases p with
        | mk a b =>
          cases hk
          exact List.mem_cons_self _ _
      · rw [if_neg hk] at h
        cases h

/-- A key present in the association list is found by the dict lookup. -/
theorem dget_some_of_mem [DecidableEq α] (m : List (α × β)) (k : α) (v : β)
    (h : (k, v) ∈ m) : ∃ w, dget m k = some w := by
  induction m with
  | nil => simp at h
  | cons p rest ih =>
    rw [dget]
    cases hr : dget rest k with
    | some w => exact ⟨w, rfl⟩
    | none =>
      rcases List.mem_cons.mp h with hp | hm
      · have hk : p.1 = k := by rw [← hp]
        rw [if_pos hk]
        exact ⟨p.2, rfl⟩
      · rcases ih hm with ⟨w, hw⟩
        rw [hw] at hr
        cases hr

/-- The order lookup misses an id exactly when no order carries that id. -/
theorem orderLookup_none_iff (orders : List OrderRec) (olk : List (Int × OrderRec))
    (h : buildOrderLookup orders = .ok olk) (oid : Int) :
    dget olk oid = none ↔ ∀ o ∈ orders, pyInt o.order_id ≠ some oid := by
  induction orders generalizing olk with
  | nil =>
    rw [buildOrderLookup] at h
    cases h
    simp [dget]
  | cons o rest ih =>
    rw [buildOrderLookup] at h
    cases h1 : pyInt o.order_id with
    | none => rw [h1] at h; cases h
    | some oid0 =>
      rw [h1] at h
      cases h2 : buildOrderLookup rest with
      | error e => rw [h2] at h; cases h
      | ok m =>
        rw [h2] at h
        cases h
        rw [dget]
        constructor
        · intro hnone o2 ho2 hp
          cases hdm : dget m oid with
          | some w => rw [hdm] at hnone; cases hnone
          | none =>
            rw [hdm] at hnone
            rcases List.mem_cons.mp ho2 with rfl | hmem
            · rw [h1] at hp
              cases hp
              simp at hnone
            · exact (ih m h2).mp hdm o2 hmem hp
        · intro hall
          have hdm : dget m oid = none :=
            (ih m h2).mpr (fun o2 ho2 => hall o2 (List.mem_cons_of_mem _ ho2))
          rw [hdm]
          have hne : oid0 ≠ oid := by
            intro hcon
            exact hall o (List.mem_cons_self _ _) (by rw [h1, hcon])
          simp [hne]

/-- Every binding of the order lookup is an order of the order set, keyed by
its parsed order id. -/
theorem orderLookup_val_mem (orders : List OrderRec) (olk : List (Int × OrderRec))
    (h : buildOrderLookup orders = .ok olk) (oid : Int) (o : OrderRec)
    (hm : (oid, o) ∈ olk) : o ∈ orders ∧ pyInt o.order_id = some oid := by
  induction orders generalizing olk with
  | nil =>
    rw [buildOrderLookup] at h
    cases h
    simp at hm
  | cons o1 rest ih =>
    rw [buildOrderLookup] at h
    cases h1 : pyInt o1.order_id with
    | none => rw [h1] at h; cases h
    | some oid0 =>
      rw [h1] at h
      cases h2 : buildOrderLookup rest with
      | error e => rw [h2] at h; cases h
      | ok m =>
        rw [h2] at h
        cases h
        rcases List.mem_cons.mp hm with heq | hmem
        · cases heq
          exact ⟨List.mem_cons_self _ _, h1⟩
        · rcases ih m h2 hmem with ⟨ha, hb⟩
          exact ⟨List.mem_cons_of_mem _ ha, hb⟩

/-- A successful fact-loop step either skips an orphan, leaving everything
else untouched, or appends exactly one fact row whose measures satisfy the
metric identities and whose keys come from the resolved order and the item. -/
theorem factStep_cases (olk : List (Int × OrderRec)) (clk : List (Int × ℚ))
    (dlk : List (String × Nat)) (st : FactState) (i : ItemRec) (st2 : FactState)
    (h : factStep olk clk dlk st i = .ok st2) :
    (stepOrphan olk i = true ∧ st2 = { st with skipped := st.skipped + 1 }) ∨
    (stepOrphan olk i = false ∧ st2.skipped = st.skipped ∧
      ∃ r, st2.facts = st.facts ++ [r] ∧ measuresOk r ∧ rowFrom olk dlk i r) := by
  rw [factStep] at h
  split at h
  next h1 => cases h
  next oid h1 =>
    split at h
    next h2 =>
      cases h
      left
      refine ⟨?_, rfl⟩
      simp only [stepOrphan, h1, Option.elim_some, h2, Option.isNone_none]
    next order h2 =>
      split at h
      next h3 => cases h
      next pid h3 =>
        split at h
        next h4 => cases h
        next qty h4 =>
          split at h
          next h5 => cases h
          next price h5 =>
            split at h
            next h6 => cases h
            next disc h6 =>
              split at h
              next h7 => cases h
              next oiid h7 =>
                split at h
                next h8 => cases h
                next cust h8 =>
                  cases h
                  right
                  refine ⟨?_, rfl, ?_⟩
                  · simp only [stepOrphan, h1, Option.elim_some, h2, Option.isNone_some]
                  · refine ⟨_, rfl, ?_, ?_⟩
                    · refine ⟨?_, ?_, ?_, ?_⟩ <;> simp only [qmul_eq, qsub_eq]
                    · exact ⟨h3, order, oid, h1, h2, h8, rfl⟩

/-- Every fact row present after a run of the fact loop was already present
or was appended by some item, with the metric identities and provenance. -/
theorem factLoop_facts (olk : List (Int × OrderRec)) (clk : List (Int × ℚ))
    (dlk : List (String × Nat)) (st : FactState) (items : List ItemRec)
    (st2 : FactState) (h : factLoop olk clk dlk st items = .ok st2) :
    ∀ r ∈ st2.facts, r ∈ st.facts ∨ ∃ i ∈ items, measuresOk r ∧ rowFrom olk dlk i r := by
  induction items generalizing st with
  | nil =>
    rw [factLoop] at h
    cases h
    intro r hr
    exact Or.inl hr
  | cons i rest ih =>
    rw [factLoop] at h
    cases hs : factStep olk clk dlk st i with
    | error e => rw [hs] at h; cases h
    | ok st1 =>
      rw [hs] at h
      intro r hr
      rcases ih st1 h r hr with hin | ⟨i2, hi2, hm⟩
      · rcases factStep_cases _ _ _ _ _ _ hs with ⟨_, rfl⟩ | ⟨_, _, r2, hf, hm2, hrf⟩
        · exact Or.inl hin
        · rw [hf] at hin
          rcases List.mem_append.mp hin with hmem | hmem
          · exact Or.inl hmem
          · have hr2 : r = r2 := by simpa using hmem
            subst hr2
            exact Or.inr ⟨i, List.mem_cons_self _ _, hm2, hrf⟩
      · exact Or.inr ⟨i2, List.mem_cons_of_mem _ hi2, hm⟩

/-- Counting invariant of the fact loop: the skip counter grows by the number
of orphaned items and every non-orphaned item contributes exactly one row. -/
theorem factLoop_counts (olk : List (Int × OrderRec)) (clk : List (Int × ℚ))
    (dlk : List (String × Nat)) (st : FactState) (items : List ItemRec)
    (st2 : FactState) (h : factLoop olk clk dlk st items = .ok st2) :
    st2.skipped = st.skipped + items.countP (stepOrphan olk) ∧
    st2.facts.length + st2.skipped = st.facts.length + st.skipped + items.length := by
  induction items generalizing st with
  | nil =>
    rw [factLoop] at h
    cases h
    simp
  | cons i rest ih =>
    rw [factLoop] at h
    cases hs : factStep olk clk dlk st i with
    | error e => rw [hs] at h; cases h
    | ok st1 =>
      rw [hs] at h
      rcases ih st1 h with ⟨ha, hb⟩
      rw [List.countP_cons, List.length_cons]
      rcases factStep_cases _ _ _ _ _ _ hs with ⟨ho, rfl⟩ | ⟨ho, hsk, r, hf, -, -⟩
      · simp only [ho, if_true]
        simp at ha hb
        exact ⟨by omega, by omega⟩
      · have hlen : st1.facts.length = st.facts.length + 1 := by
          rw [hf, List.length_append, List.length_singleton]
        simp only [ho, if_false]
        simp only [Bool.false_eq_true, if_false]
        exact ⟨by omega, by omega⟩

/-- A successful transform decomposes into its successful stages. -/
theorem transform_ok (data : SourceData) (out : TransformOut)
    (h : transform data = .ok out) :
    ∃ dd dc dp clk olk st,
      buildDateDim data.orders = .ok dd ∧
      buildDimCustomer data.customers = .ok dc ∧
      buildDimProduct data.products = .ok dp ∧
      buildCostLookup data.products = .ok clk ∧
      buildOrderLookup data.orders = .ok olk ∧
      factLoop olk clk (dd.map (fun r => (r.full_date, r.date_id))) ⟨[], 0⟩
        data.order_items = .ok st ∧
      out = ⟨dd, dc, dp, st.facts, st.skipped⟩ := by
  rw [transform] at h
  split at h
  next => cases h
  next dd h1 =>
    split at h
    next => cases h
    next dc h2 =>
      split at h
      next => cases h
      next dp h3 =>
        split at h
        next => cases h
        next clk h4 =>
          split at h
          next => cases h
          next olk h5 =>
            dsimp only at h
            split at h
            next => cases h
            next st h6 =>
              cases h
              exact ⟨dd, dc, dp, clk, olk, st, h1, h2, h3, h4, h5, h6, rfl⟩

/-- Every source customer whose id parses yields a dimension row carrying
that id. -/
theorem dimCustomer_complete (cs : List CustomerRec) (out : List DimCustomer)
    (h : buildDimCustomer cs = .ok out) (c : CustomerRec) (hc : c ∈ cs)
    (n : Int) (hn : pyInt c.customer_id = some n) :
    ∃ row ∈ out, row.customer_id = n := by
  induction cs generalizing out with
  | nil => simp at hc
  | cons c1 rest ih =>
    rw [buildDimCustomer] at h
    cases h1 : dimCustomerRow c1 with
    | error e => rw [h1] at h; cases h
    | ok row =>
      rw [h1] at h
      cases h2 : buildDimCustomer rest with
      | error e => rw [h2] at h; cases h
      | ok rows =>
        rw [h2] at h
        cases h
        rcases List.mem_cons.mp hc with rfl | hmem
        · refine ⟨row, List.mem_cons_self _ _, ?_⟩
          rw [dimCustomerRow] at h1
          rw [hn] at h1
          cases h1
          rfl
        · rcases ih rows h2 hmem with ⟨row2, hr2, hid⟩
          exact ⟨row2, List.mem_cons_of_mem _ hr2, hid⟩

/-- Every source product whose id parses yields a dimension row carrying
that id. -/
theorem dimProduct_complete (ps : List ProductRec) (out : List DimProduct)
    (h : buildDimProduct ps = .ok out) (p : ProductRec) (hp : p ∈ ps)
    (n : Int) (hn : pyInt p.product_id = some n) :
    ∃ row ∈ out, row.product_id = n := by
  induction ps generalizing out with
  | nil => simp at hp
  | cons p1 rest ih =>
    rw [buildDimProduct] at h
    cases h1 : dimProductRow p1 with
    | error e => rw [h1] at h; cases h
    | ok row =>
      rw [h1] at h
      cases h2 : buildDimProduct rest with
      | error e => rw [h2] at h; cases h
      | ok rows =>
        rw [h2] at h
        cases h
        rcases List.mem_cons.mp hp with rfl | hmem
        · refine ⟨row, List.mem_cons_self _ _, ?_⟩
          rw [dimProductRow] at h1
          rw [hn] at h1
          cases h2f : pyFloat p.unit_cost with
          | none => rw [h2f] at h1; cases h1
          | some cval => rw [h2f] at h1; cases h1; rfl
        · rcases ih rows h2 hmem with ⟨row2, hr2, hid⟩
          exact ⟨row2, List.mem_cons_of_mem _ hr2, hid⟩

/-- A date passing the construction checks satisfies the range invariants. -/
theorem mkValidDate_valid (y m d0 : Nat) (d : Date)
    (h : mkValidDate y m d0 = some d) : validDate d := by
  rw [mkValidDate] at h
  split at h
  · cases h
    exact (by assumption)
  · cases h

/-- A parsed ISO date satisfies the range invariants. -/
theorem fromiso_valid (s : String) (d : Date)
    (h : fromisoformat s = some d) : validDate d := by
  rw [fromisoformat] at h
  split at h
  · split at h
    · exact mkValidDate_valid _ _ _ _ h
    · cases h
  · split at h
    · exact mkValidDate_valid _ _ _ _ h
    · cases h
  · cases h

/-- No month has more than 31 days. -/
theorem daysInMonth_le_31 (y m : Nat) : daysInMonth y m ≤ 31 := by
  rw [daysInMonth]
  split
  · split <;> omega
  · split <;> omega

/-- A valid day-of-month is at most 31. -/
theorem validDate_day_le (d : Date) (h : validDate d) : d.day ≤ 31 :=
  le_trans h.2.2.2.2.2 (daysInMonth_le_31 _ _)

/-- On valid dates, calendar order coincides with `dateId` order. -/
theorem dateId_lt_iff (a b : Date) (ha : validDate a) (hb : validDate b) :
    calBefore a b ↔ dateId a < dateId b := by
  have ha31 := validDate_day_le a ha
  have hb31 := validDate_day_le b hb
  obtain ⟨hay, hay2, ham, ham2, had, -⟩ := ha
  obtain ⟨hby, hby2, hbm, hbm2, hbd, -⟩ := hb
  rw [calBefore, dateId, dateId]
  omega

/-- On valid dates, `dateId` is injective. -/
theorem dateId_inj (a b : Date) (ha : validDate a) (hb : validDate b)
    (h : dateId a = dateId b) : a = b := by
  have ha31 := validDate_day_le a ha
  have hb31 := validDate_day_le b hb
  obtain ⟨hay, hay2, ham, ham2, had, -⟩ := ha
  obtain ⟨hby, hby2, hbm, hbm2, hbd, -⟩ := hb
  rw [dateId, dateId] at h
  have hcomp : a.year = b.year ∧ a.month = b.month ∧ a.day = b.day := by omega
  cases a
  cases b
  simp_all

/-- The date-dimension loop only ever extends its accumulator. -/
theorem bddAux_shape (orders : List OrderRec) (acc out : List DateRow)
    (h : buildDateDimAux acc orders = .ok out) : ∃ t, out = acc ++ t := by
  induction orders generalizing acc with
  | nil =>
    rw [buildDateDimAux] at h
    cases h
    exact ⟨[], by simp⟩
  | cons o rest ih =>
    rw [buildDateDimAux] at h
    split at h
    next => cases h
    next d h1 =>
      split at h
      next hc => exact ih acc h
      next hc =>
        rcases ih _ h with ⟨t, ht⟩
        exact ⟨mkDateRow d :: t, by rw [ht]; simp⟩

/-- Every row produced by the date-dimension loop is the canonical row of a
date parsed from some order. -/
theorem bddAux_sound (orders : List OrderRec) (acc out : List DateRow)
    (h : buildDateDimAux acc orders = .ok out) :
    ∀ r ∈ out, r ∈ acc ∨
      ∃ o ∈ orders, ∃ d, fromisoformat o.order_date = some d ∧ r = mkDateRow d := by
  induction orders generalizing acc with
  | nil =>
    rw [buildDateDimAux] at h
    cases h
    intro r hr
    exact Or.inl hr
  | cons o rest ih =>
    rw [buildDateDimAux] at h
    split at h
    next => cases h
    next d h1 =>
      intro r hr
      split at h
      next hc =>
        rcases ih acc h r hr with hin | ⟨o2, ho2, d2, hd2, hrow⟩
        · exact Or.inl hin
        · exact Or.inr ⟨o2, List.mem_cons_of_mem _ ho2, d2, hd2, hrow⟩
      next hc =>
        rcases ih _ h r hr with hin | ⟨o2, ho2, d2, hd2, hrow⟩
        · rcases List.mem_append.mp hin with hin2 | hin2
          · exact Or.inl hin2
          · have hmk : r = mkDateRow d := by simpa using hin2
            exact Or.inr ⟨o, List.mem_cons_self _ _, d, h1, hmk⟩
        · exact Or.inr ⟨o2, List.mem_cons_of_mem _ ho2, d2, hd2, hrow⟩

/-- The date ids produced by the date-dimension loop stay duplicate-free. -/
theorem bddAux_nodup (orders : List OrderRec) (acc out : List DateRow)
    (hacc : (acc.map DateRow.date_id).Nodup)
    (h : buildDateDimAux acc orders = .ok out) :
    (out.map DateRow.date_id).Nodup := by
  induction orders generalizing acc with
  | nil =>
    rw [buildDateDimAux] at h
    cases h
    exact hacc
  | cons o rest ih =>
    rw [buildDateDimAux] at h
    split at h
    next => cases h
    next d h1 =>
      split at h
      next hc => exact ih acc hacc h
      next hc =>
        refine ih _ ?_ h
        rw [List.map_append, List.nodup_append]
        refine ⟨hacc, by simp, ?_⟩
        intro x hx
        simp only [List.map_cons, List.map_nil, List.mem_singleton]
        intro hx2
        apply hc
        rw [hx2] at hx
        have hre : (mkDateRow d).date_id = dateId d := rfl
        rw [hre] at hx
        simpa using hx

/-- Every date parsed from the order set has its id in the loop result. -/
theorem bddAux_complete (orders : List OrderRec) (acc out : List DateRow)
    (h : buildDateDimAux acc orders = .ok out) :
    ∀ o ∈ orders, ∀ d, fromisoformat o.order_date = some d →
      dateId d ∈ out.map DateRow.date_id := by
  induction orders generalizing acc with
  | nil =>
    intro o ho
    simp at ho
  | cons o1 rest ih =>
    rw [buildDateDimAux] at h
    split at h
    next => cases h
    next d1 h1 =>
      intro o ho d hd
      split at h
      next hc =>
        rcases List.mem_cons.mp ho with rfl | hmem
        · rw [h1] at hd
          cases hd
          rcases bddAux_shape _ _ _ h with ⟨t, rfl⟩
          have hin : dateId d1 ∈ acc.map DateRow.date_id := by simpa using hc
          rw [List.map_append]
          exact List.mem_append_left _ hin
        · exact ih acc h o hmem d hd
      next hc =>
        rcases List.mem_cons.mp ho with rfl | hmem
        · rw [h1] at hd
          cases hd
          rcases bddAux_shape _ _ _ h with ⟨t, rfl⟩
          rw [List.map_append, List.map_append]
          refine List.mem_append_left _ (List.mem_append_right _ ?_)
          simp only [List.map_cons, List.map_nil, List.mem_singleton]
          rfl
        · exact ih _ h o hmem d hd

/-- When the date-dimension loop succeeds, every order date parses. -/
theorem bddAux_parses (orders : List OrderRec) (acc out : List DateRow)
    (h : buildDateDimAux acc orders = .ok out) :
    ∀ o ∈ orders, ∃ d, fromisoformat o.order_date = some d := by
  induction orders generalizing acc with
  | nil =>
    intro o ho
    simp at ho
  | cons o1 rest ih =>
    rw [buildDateDimAux] at h
    split at h
    next => cases h
    next d1 h1 =>
      intro o ho
      rcases List.mem_cons.mp ho with rfl | hmem
      · exact ⟨d1, h1⟩
      · split at h
        next hc => exact ih acc h o hmem
        next hc => exact ih _ h o hmem

/-- The date dimension holds the canonical row of every parsed order date. -/
theorem dateDim_row_for (orders : List OrderRec) (out : List DateRow)
    (h : buildDateDim orders = .ok out) (o : OrderRec) (ho : o ∈ orders)
    (d : Date) (hd : fromisoformat o.order_date = some d) :
    ∃ r ∈ out, r = mkDateRow d := by
  have hmem := bddAux_complete orders [] out h o ho d hd
  rcases List.mem_map.mp hmem with ⟨r, hr, hrid⟩
  rcases bddAux_sound orders [] out h r hr with hin | ⟨o2, _, d2, hd2, hrow⟩
  · simp at hin
  · have hv : validDate d := fromiso_valid _ _ hd
    have hv2 : validDate d2 := fromiso_valid _ _ hd2
    have heq : dateId d2 = dateId d := by
      rw [← hrid, hrow]
      rfl
    have hdd : d2 = d := dateId_inj _ _ hv2 hv heq
    exact ⟨r, hr, by rw [hrow, hdd]⟩

/-- The fact loop's orphan test agrees with orphanhood over the order set the
lookup was built from. -/
theorem stepOrphan_eq_orphaned (orders : List OrderRec) (olk : List (Int × OrderRec))
    (h : buildOrderLookup orders = .ok olk) (i : ItemRec) :
    stepOrphan olk i = orphaned orders i := by
  rw [stepOrphan, orphaned]
  cases hp : pyInt i.order_id with
  | none => rfl
  | some oid =>
    simp only [Option.elim_some]
    cases hdg : dget olk oid with
    | none =>
      have hall := (orderLookup_none_iff orders olk h oid).mp hdg
      have hany : orders.any (fun o => decide (pyInt o.order_id = some oid)) = false := by
        rw [List.any_eq_false]
        intro o ho
        simpa using hall o ho
      rw [hany]
      rfl
    | some order =>
      have hv := orderLookup_val_mem orders olk h oid order (dget_mem _ _ _ hdg)
      have hany : orders.any (fun o => decide (pyInt o.order_id = some oid)) = true := by
        rw [List.any_eq_true]
        exact ⟨order, hv.1, by simpa using hv.2⟩
      rw [hany]
      rfl

/-- C1: for every order item that produces a fact row, the row's measures
satisfy gross_revenue = round4(quantity * unit_price), net_revenue =
round4(gross_revenue * (1 - discount)), cogs = round4(quantity * unit_cost)
and gross_margin = round4(net_revenue - cogs), for every valid discount in
[0, 1). -/
theorem c1_metric_identity (data : SourceData) (out : TransformOut)
    (h : transform data = .ok out) (r : FactRow) (hr : r ∈ out.fact_sales)
    (_hd1 : 0 ≤ r.discount) (_hd2 : r.discount < 1) :
    r.gross_revenue = round4 ((r.quantity : ℚ) * r.unit_price) ∧
    r.net_revenue = round4 (r.gross_revenue * (1 - r.discount)) ∧
    r.cogs = round4 ((r.quantity : ℚ) * r.unit_cost) ∧
    r.gross_margin = round4 (r.net_revenue - r.cogs) := by
  rcases transform_ok data out h with ⟨dd, dc, dp, clk, olk, st, h1, h2, h3, h4, h5, h6, rfl⟩
  have hr2 : r ∈ st.facts := hr
  rcases factLoop_facts _ _ _ _ _ _ h6 r hr2 with hin | ⟨i, hi, hm, hrf⟩
  · simp at hin
  · exact hm

/-- C1 witness: the margin scenario (unit_cost 6.00, qty 3, unit_price 10.00,
discount 0.10) yields gross 30, net 27, cogs 18, margin 9, and the metric
identities hold on its fact row. -/
theorem c1_metric_identity_witness :
    transform c1Data = .ok c1Out ∧
    c1Row ∈ c1Out.fact_sales ∧
    (0 ≤ c1Row.discount ∧ c1Row.discount < 1) ∧
    (c1Row.gross_revenue = 30 ∧ c1Row.net_revenue = 27 ∧
      c1Row.cogs = 18 ∧ c1Row.gross_margin = 9) ∧
    (c1Row.gross_revenue = round4 ((c1Row.quantity : ℚ) * c1Row.unit_price) ∧
     c1Row.net_revenue = round4 (c1Row.gross_revenue * (1 - c1Row.discount)) ∧
     c1Row.cogs = round4 ((c1Row.quantity : ℚ) * c1Row.unit_cost) ∧
     c1Row.gross_margin = round4 (c1Row.net_revenue - c1Row.cogs)) :=
  ⟨by decide, by decide, ⟨by decide, by decide⟩,
   ⟨by decide, by decide, by decide, by decide⟩,
   c1_metric_identity c1Data c1Out (by decide) c1Row (by decide) (by decide) (by decide)⟩

/-- C2: the number of fact rows equals the number of order items minus the
number of orphaned items, and the skip counter counts exactly the orphaned
items. -/
theorem c2_fact_cardinality (data : SourceData) (out : TransformOut)
    (h : transform data = .ok out) :
    out.skipped = data.order_items.countP (orphaned data.orders) ∧
    out.fact_sales.length + out.skipped = data.order_items.length := by
  rcases transform_ok data out h with ⟨dd, dc, dp, clk, olk, st, h1, h2, h3, h4, h5, h6, rfl⟩
  rcases factLoop_counts _ _ _ _ _ _ h6 with ⟨ha, hb⟩
  simp only [] at ha hb
  have hcong : data.order_items.countP (stepOrphan olk) =
      data.order_items.countP (orphaned data.orders) :=
    List.countP_congr (fun i _ => by rw [stepOrphan_eq_orphaned data.orders olk h5 i])
  constructor
  · show st.skipped = _
    rw [ha, ← hcong]
    simp
  · show st.facts.length + st.skipped = _
    rw [hb]
    simp

/-- C2 witness: with orders 1 and 2 and items (item 10, order 1) and
(item 11, order 99), the result is exactly one fact row (item 10) and a skip
count of 1. -/
theorem c2_fact_cardinality_witness :
    transform c2Data = .ok c2Out ∧
    c2Out.fact_sales.map FactRow.order_item_id = [10] ∧
    c2Out.skipped = 1 ∧
    c2Data.order_items.countP (orphaned c2Data.orders) = 1 ∧
    (c2Out.skipped = c2Data.order_items.countP (orphaned c2Data.orders) ∧
     c2Out.fact_sales.length + c2Out.skipped = c2Data.order_items.length) :=
  ⟨by decide, by decide, by decide, by decide,
   c2_fact_cardinality c2Data c2Out (by decide)⟩

/-- C3 counterexample: with empty customer and product sets and an order date
in the basic ISO form, the transform succeeds and emits a fact row none of
whose three keys resolves, so referential closure fails for arbitrary
inputs. -/
theorem c3_referential_closure_cex :
    transform c3Data = .ok c3Out ∧ c3Out.fact_sales.length = 1 ∧ ¬ refClosed c3Out :=
  ⟨by decide, by decide, by decide⟩

/-- C3 (amended): every fact row's date_id, customer_id and product_id occur
in the respective dimension, provided every order's customer_id matches a
source customer, every item's product_id matches a source product, and every
order_date is in canonical `YYYY-MM-DD` form. -/
theorem c3_referential_closure_amended (data : SourceData) (out : TransformOut)
    (h : transform data = .ok out)
    (hcust : ∀ o ∈ data.orders, ∃ c ∈ data.customers, c.customer_id = o.customer_id)
    (hprod : ∀ i ∈ data.order_items, ∃ p ∈ data.products, p.product_id = i.product_id)
    (hdates : ∀ o ∈ data.orders, canonicalDate o.order_date) :
    refClosed out := by
  rcases transform_ok data out h with ⟨dd, dc, dp, clk, olk, st, h1, h2, h3, h4, h5, h6, rfl⟩
  intro r hr
  have hr2 : r ∈ st.facts := hr
  rcases factLoop_facts _ _ _ _ _ _ h6 r hr2 with hin | ⟨i, hi, -, hrf⟩
  · simp at hin
  rcases hrf with ⟨hpid, order, oid, hoid, hdget, hcust2, hdid⟩
  have horder : order ∈ data.orders ∧ pyInt order.order_id = some oid :=
    orderLookup_val_mem _ _ h5 oid order (dget_mem _ _ _ hdget)
  refine ⟨?_, ?_, ?_⟩
  · rcases bddAux_parses _ _ _ h1 order horder.1 with ⟨d, hpd⟩
    have hcanon0 := hdates order horder.1
    rw [canonicalDate, hpd] at hcanon0
    have hcanon : isoStr d = order.order_date := by simpa using hcanon0
    rcases dateDim_row_for _ _ h1 order horder.1 d hpd with ⟨rr, hrr, hrrow⟩
    have hfull : rr.full_date = order.order_date := by
      rw [hrrow]
      exact hcanon
    have hkey : (order.order_date, rr.date_id) ∈
        dd.map (fun r2 => (r2.full_date, r2.date_id)) := by
      refine List.mem_map.mpr ⟨rr, hrr, ?_⟩
      rw [hfull]
    rcases dget_some_of_mem _ _ _ hkey with ⟨w, hw⟩
    have hwmem := dget_mem _ _ _ hw
    rcases List.mem_map.mp hwmem with ⟨rr2, hrr2, hpair⟩
    refine ⟨rr2, hrr2, ?_⟩
    injection hpair with hfst hsnd
    rw [hdid, hw, hsnd]
  · rcases hcust order horder.1 with ⟨c, hcmem, hcid⟩
    have hcp : pyInt c.customer_id = some r.customer_id := by
      rw [hcid]
      exact hcust2
    rcases dimCustomer_complete _ _ h2 c hcmem _ hcp with ⟨row, hrow, hrid⟩
    exact ⟨row, hrow, hrid.symm⟩
  · rcases hprod i hi with ⟨p, hpmem, hpid2⟩
    have hpp : pyInt p.product_id = some r.product_id := by
      rw [hpid2]
      exact hpid
    rcases dimProduct_complete _ _ h3 p hpmem _ hpp with ⟨row, hrow, hrid⟩
    exact ⟨row, hrow, hrid.symm⟩

/-- C3 witness: a well-referenced input with a canonical order date satisfies
referential closure. -/
theorem c3_referential_closure_amended_witness :
    transform c3GoodData = .ok c3GoodOut ∧ refClosed c3GoodOut :=
  ⟨by decide,
   c3_referential_closure_amended c3GoodData c3GoodOut (by decide) (by decide)
     (by decide) (by decide)⟩

/-- C4: on a date-lookup miss the transform does not fail and does not drop
the item; it appends a fact row with a null date_id and completes
successfully. With order date "20240105" the dimension key is the canonical
"2024-01-05", the lookup of the raw string misses, and the single fact row
carries date_id none with no error and no skip. -/
theorem c4_unresolved_reference_tolerated :
    transform c4Data = .ok c4Out ∧
    c4Out.dim_date.map DateRow.full_date = ["2024-01-05"] ∧
    c4Data.orders.map OrderRec.order_date = ["20240105"] ∧
    dget (c4Out.dim_date.map (fun r => (r.full_date, r.date_id))) "20240105" = none ∧
    c4Out.fact_sales.map FactRow.date_id = [none] ∧
    c4Out.skipped = 0 :=
  ⟨by decide, by decide, by decide, by decide, by decide, by decide⟩

/-- C5 counterexample: two source customers differing only in registered_at
produce identical dimension rows, so registered_at does not pass through. -/
theorem c5_registered_at_dropped_cex :
    c5CustA.registered_at ≠ c5CustB.registered_at ∧
    dimCustomerRow c5CustA = dimCustomerRow c5CustB :=
  ⟨by decide, by decide⟩

/-- C5 (amended): the customer dimension has one row per source customer;
full_name is first_name, a space, last_name; customer_id is the parsed
source id; and first_name, last_name, email, city and segment pass through
unchanged. registered_at is dropped. -/
theorem c5_customer_dim_amended (cs : List CustomerRec) (out : List DimCustomer)
    (h : buildDimCustomer cs = .ok out) :
    out.length = cs.length ∧
    ∀ p ∈ cs.zip out,
      pyInt p.1.customer_id = some p.2.customer_id ∧
      p.2.full_name = p.1.first_name ++ " " ++ p.1.last_name ∧
      p.2.first_name = p.1.first_name ∧
      p.2.last_name = p.1.last_name ∧
      p.2.email = p.1.email ∧
      p.2.city = p.1.city ∧
      p.2.segment = p.1.segment := by
  induction cs generalizing out with
  | nil =>
    rw [buildDimCustomer] at h
    cases h
    exact ⟨rfl, by simp⟩
  | cons c rest ih =>
    rw [buildDimCustomer] at h
    cases h1 : dimCustomerRow c with
    | error e => rw [h1] at h; cases h
    | ok row =>
      rw [h1] at h
      cases h2 : buildDimCustomer rest with
      | error e => rw [h2] at h; cases h
      | ok rows =>
        rw [h2] at h
        cases h
        rcases ih rows h2 with ⟨hlen, hall⟩
        refine ⟨by simp [hlen], ?_⟩
        intro p hp
        rw [List.zip_cons_cons] at hp
        rcases List.mem_cons.mp hp with rfl | hmem
        · rw [dimCustomerRow] at h1
          cases hpi : pyInt c.customer_id with
          | none => rw [hpi] at h1; cases h1
          | some cid =>
            rw [hpi] at h1
            cases h1
            exact ⟨rfl, rfl, rfl, rfl, rfl, rfl, rfl⟩
        · exact hall p hmem

/-- C5 witness: building the dimension from one concrete customer gives one
row with the concatenated full name. -/
theorem c5_customer_dim_amended_witness :
    buildDimCustomer [c5CustA] = .ok c5DimOut ∧
    c5DimOut.length = [c5CustA].length ∧
    c5DimOut.map DimCustomer.full_name = ["Ann Lee"] :=
  ⟨by decide, (c5_customer_dim_amended [c5CustA] c5DimOut (by decide)).1, by decide⟩

/-- C6 counterexample: two source products differing only in unit_price
produce identical dimension rows, so unit_price does not pass through. -/
theorem c6_unit_price_dropped_cex :
    c6ProdA.unit_price ≠ c6ProdB.unit_price ∧
    dimProductRow c6ProdA = dimProductRow c6ProdB :=
  ⟨by decide, by decide⟩

/-- C6 (amended): the product dimension has one row per source product;
product_id and unit_cost are the parsed source values; and product_name,
category and supplier pass through unchanged. unit_price is dropped. -/
theorem c6_product_dim_amended (ps : List ProductRec) (out : List DimProduct)
    (h : buildDimProduct ps = .ok out) :
    out.length = ps.length ∧
    ∀ p ∈ ps.zip out,
      pyInt p.1.product_id = some p.2.product_id ∧
      pyFloat p.1.unit_cost = some p.2.unit_cost ∧
      p.2.product_name = p.1.product_name ∧
      p.2.category = p.1.category ∧
      p.2.supplier = p.1.supplier := by
  induction ps generalizing out with
  | nil =>
    rw [buildDimProduct] at h
    cases h
    exact ⟨rfl, by simp⟩
  | cons c rest ih =>
    rw [buildDimProduct] at h
    cases h1 : dimProductRow c with
    | error e => rw [h1] at h; cases h
    | ok row =>
      rw [h1] at h
      cases h2 : buildDimProduct rest with
      | error e => rw [h2] at h; cases h
      | ok rows =>
        rw [h2] at h
        cases h
        rcases ih rows h2 with ⟨hlen, hall⟩
        refine ⟨by simp [hlen], ?_⟩
        intro p hp
        rw [List.zip_cons_cons] at hp
        rcases List.mem_cons.mp hp with rfl | hmem
        · rw [dimProductRow] at h1
          cases hpi : pyInt c.product_id with
          | none => rw [hpi] at h1; cases h1
          | some pid =>
            rw [hpi] at h1
            cases hpf : pyFloat c.unit_cost with
            | none => rw [hpf] at h1; cases h1
            | some cost =>
              rw [hpf] at h1
              cases h1
              exact ⟨rfl, rfl, rfl, rfl, rfl⟩
        · exact hall p hmem

/-- C6 witness: building the dimension from one concrete product gives one
row carrying the parsed unit cost. -/
theorem c6_product_dim_amended_witness :
    buildDimProduct [c6ProdA] = .ok c6DimOut ∧
    c6DimOut.length = [c6ProdA].length ∧
    c6DimOut.map DimProduct.unit_cost = [6] :=
  ⟨by decide, (c6_product_dim_amended [c6ProdA] c6DimOut (by decide)).1, by decide⟩

/-- C7: the date dimension has exactly one row per distinct order date (ids
are duplicate-free, every row comes from a parsed order date, every parsed
order date has a row), each row is a pure function of its calendar date, the
date_id is the integer YYYYMMDD (eight digits for four-digit years), quarter
is ((month - 1) / 3) + 1, and is_weekend holds exactly on weekdays 5 and 6
of a Monday-first week. -/
theorem c7_date_dim (orders : List OrderRec) (out : List DateRow)
    (h : buildDateDim orders = .ok out) :
    (out.map DateRow.date_id).Nodup ∧
    (∀ r ∈ out, ∃ o ∈ orders, ∃ d, fromisoformat o.order_date = some d ∧ r = mkDateRow d) ∧
    (∀ o ∈ orders, ∀ d, fromisoformat o.order_date = some d →
      ∃ r ∈ out, r.date_id = dateId d) ∧
    (∀ r ∈ out,
      r.date_id = 10000 * r.year + 100 * r.month + r.day ∧
      r.date_id < 100000000 ∧
      (1000 ≤ r.year → 10000000 ≤ r.date_id) ∧
      r.quarter = (r.month - 1) / 3 + 1 ∧
      (r.is_weekend = true ↔
        weekday ⟨r.year, r.month, r.day⟩ = 5 ∨ weekday ⟨r.year, r.month, r.day⟩ = 6)) := by
  refine ⟨bddAux_nodup _ [] _ (by simp) h, ?_, ?_, ?_⟩
  · intro r hr
    rcases bddAux_sound _ [] _ h r hr with hin | hx
    · simp at hin
    · exact hx
  · intro o ho d hd
    have hmem := bddAux_complete _ [] _ h o ho d hd
    rcases List.mem_map.mp hmem with ⟨r, hr, hrid⟩
    exact ⟨r, hr, hrid⟩
  · intro r hr
    rcases bddAux_sound _ [] _ h r hr with hin | ⟨o, ho, d, hd, rfl⟩
    · simp at hin
    have hv := fromiso_valid _ _ hd
    have h31 := validDate_day_le d hv
    obtain ⟨h1a, h1b, h1c, h1d, h1e, h1f⟩ := hv
    have hlt : weekday d < 7 := Nat.mod_lt _ (by norm_num)
    refine ⟨rfl, ?_, ?_, rfl, ?_⟩
    · show dateId d < 100000000
      rw [dateId]
      omega
    · intro hy
      have hy2 : 1000 ≤ d.year := hy
      show 10000000 ≤ dateId d
      rw [dateId]
      omega
    · show decide (5 ≤ weekday d) = true ↔ weekday d = 5 ∨ weekday d = 6
      constructor
      · intro h5
        have h5b : 5 ≤ weekday d := of_decide_eq_true h5
        omega
      · intro h56
        apply decide_eq_true
        omega

/-- C7 witness: on three orders over 2024-03-15 (twice) and 2024-03-16, the
date dimension has exactly the two rows 20240315 and 20240316, both in
quarter 1, with only the Saturday flagged as weekend, and duplicate-free
ids. -/
theorem c7_date_dim_witness :
    buildDateDim c7Orders = .ok c7Out ∧
    c7Out.map DateRow.date_id = [20240315, 20240316] ∧
    c7Out.map DateRow.quarter = [1, 1] ∧
    c7Out.map DateRow.is_weekend = [false, true] ∧
    (c7Out.map DateRow.date_id).Nodup :=
  ⟨by decide, by decide, by decide, by decide,
   (c7_date_dim c7Orders c7Out (by decide)).1⟩

/-- C8: for distinct dates in the date dimension, calendar order holds
exactly when the date ids are in increasing order. -/
theorem c8_date_id_monotone (orders : List OrderRec) (out : List DateRow)
    (h : buildDateDim orders = .ok out) (r1 r2 : DateRow)
    (h1 : r1 ∈ out) (h2 : r2 ∈ out)
    (_hne : (⟨r1.year, r1.month, r1.day⟩ : Date) ≠ ⟨r2.year, r2.month, r2.day⟩) :
    calBefore ⟨r1.year, r1.month, r1.day⟩ ⟨r2.year, r2.month, r2.day⟩ ↔
      r1.date_id < r2.date_id := by
  rcases bddAux_sound _ [] _ h r1 h1 with hin | ⟨o1, -, d1, hd1, rfl⟩
  · simp at hin
  rcases bddAux_sound _ [] _ h r2 h2 with hin | ⟨o2, -, d2, hd2, rfl⟩
  · simp at hin
  have hv1 := fromiso_valid _ _ hd1
  have hv2 := fromiso_valid _ _ hd2
  show calBefore d1 d2 ↔ dateId d1 < dateId d2
  exact dateId_lt_iff d1 d2 hv1 hv2

/-- C8 witness: 2023-12-31 precedes 2024-03-15 in calendar order, and
20231231 < 20240315. -/
theorem c8_date_id_monotone_witness :
    buildDateDim c8Orders = .ok c8Out ∧
    c8Row1 ∈ c8Out ∧ c8Row2 ∈ c8Out ∧
    (⟨c8Row2.year, c8Row2.month, c8Row2.day⟩ : Date) ≠
      ⟨c8Row1.year, c8Row1.month, c8Row1.day⟩ ∧
    c8Row2.date_id < c8Row1.date_id ∧
    (calBefore ⟨c8Row2.year, c8Row2.month, c8Row2.day⟩
        ⟨c8Row1.year, c8Row1.month, c8Row1.day⟩ ↔
      c8Row2.date_id < c8Row1.date_id) :=
  ⟨by decide, by decide, by decide, by decide, by decide,
   c8_date_id_monotone c8Orders c8Out (by decide) c8Row2 c8Row1 (by decide)
     (by decide) (by decide)⟩

/-- C9: the first store effect of load destroys the prior database file, so a
failure at any later point of the seven-step load (schema application, four
bulk inserts) leaves no prior content; the new fact rows are only written by
the final step. -/
theorem c9_load_destroys_prior :
    loadRun [] [] [] [default] 1 (some c9Prior) = none ∧
    loadRun [] [] [] [default] 6 (some c9Prior) =
      some ⟨some [], some [], some [], some []⟩ ∧
    loadRun [] [] [] [default] 7 (some c9Prior) =
      some ⟨some [], some [], some [], some [default]⟩ ∧
    (loadOps [] [] [] [(default : FactRow)]).length = 7 :=
  ⟨by decide, by decide, by decide, by decide⟩

/-- C10: an item whose parsed order id misses the order lookup is dropped
with the skip counter incremented and nothing else: the step result is the
same for every value of its other fields, so they are never parsed and can
never raise. -/
theorem c10_orphan_fields_ignored (olk : List (Int × OrderRec)) (clk : List (Int × ℚ))
    (dlk : List (String × Nat)) (st : FactState) (item : ItemRec) (oid : Int)
    (hp : pyInt item.order_id = some oid) (hmiss : dget olk oid = none) :
    factStep olk clk dlk st item = .ok { st with skipped := st.skipped + 1 } := by
  rw [factStep]
  split
  next heq => rw [hp] at heq; cases heq
  next oid2 heq =>
    rw [hp] at heq
    cases heq
    split
    next => rfl
    next order heq2 => rw [hmiss] at heq2; cases heq2

/-- C10 witness: an orphan item whose order_item_id, quantity and unit_price
fields do not even parse is still skipped cleanly with no error. -/
theorem c10_orphan_fields_ignored_witness :
    pyInt c10Item.order_id = some 99 ∧
    dget c10Olk 99 = none ∧
    pyInt c10Item.quantity = none ∧
    pyFloat c10Item.unit_price = none ∧
    pyInt c10Item.order_item_id = none ∧
    factStep c10Olk [] [] ⟨[], 0⟩ c10Item = .ok ⟨[], 1⟩ :=
  ⟨by decide, by decide, by decide, by decide, by decide,
   c10_orphan_fields_ignored c10Olk [] [] ⟨[], 0⟩ c10Item 99 (by decide) (by decide)⟩

end RetailDW
